import Mathlib

/-!
Shallow embedding of the `novelai` Go package (conversation client for the
NovelAI OpenAI-compatible completions endpoint) and proofs about it.

The embedding covers: the message/usage/settings data model, the GLM prompt
formatter `buildPrompt`, stop-reason normalization, the trailing-assistant
merge `MergeIfLastTwoAssistant`, the `Send` control flow (with the HTTP
exchange and the stdlib JSON decoder abstracted as parameters), the
`SendUntilDone` continuation loop (with `Send` abstracted), the SSE stream
decoder `parseSSEStream`, and the streaming output-token estimate of
`SendStreaming`.
-/

namespace NovelAI

/-! ## String helpers (Go `strings` / `unicode` stdlib behaviour) -/

/-- Whether `needle` is a leading segment of `hay` (char lists). -/
def listIsPre : List Char → List Char → Bool
  | [], _ => true
  | _ :: _, [] => false
  | x :: xs, y :: ys => x == y && listIsPre xs ys

/-- Number of (possibly overlapping) occurrences of `needle` in `hay`. -/
def strCountAux (needle : List Char) : List Char → Nat
  | [] => 0
  | c :: rest => (if listIsPre needle (c :: rest) then 1 else 0) + strCountAux needle rest

/-- Number of occurrences of the substring `needle` in `hay`. -/
def strCount (needle hay : String) : Nat := strCountAux needle.data hay.data

/-- The cutset `" \t\n\r"` used by `strings.TrimRight` in `MergeIfLastTwoAssistant`. -/
def isMergeCut (c : Char) : Bool := c == ' ' || c == '\t' || c == '\n' || c == '\r'

/-- Go `unicode.IsSpace`: Latin-1 spaces plus the Unicode White_Space code points. -/
def isGoSpace (c : Char) : Bool :=
  c == ' ' || c == '\t' || c == '\n' || c == '\x0b' || c == '\x0c' || c == '\r' ||
  c.val == 0x85 || c.val == 0xA0 || c.val == 0x1680 ||
  (0x2000 ≤ c.val && c.val ≤ 0x200A) ||
  c.val == 0x2028 || c.val == 0x2029 || c.val == 0x202F ||
  c.val == 0x205F || c.val == 0x3000

/-- Go `strings.TrimRight(s, " \t\n\r")`. -/
def goTrimRight (s : String) : String :=
  String.mk ((s.data.reverse.dropWhile isMergeCut).reverse)

/-- Go `strings.TrimSpace(s)`. -/
def goTrimSpace (s : String) : String :=
  String.mk (((s.data.dropWhile isGoSpace).reverse.dropWhile isGoSpace).reverse)

/-! ## Data model (`types.go`, `part_000`) -/

/-- Go `Message`: a role-tagged entry of the conversation history. -/
structure Message where
  role : String
  content : String
deriving DecidableEq, Repr

/-- Go `Usage`: cumulative token counters (Go `int`). -/
structure Usage where
  inputTokens : Int
  outputTokens : Int
deriving DecidableEq, Repr

/-- Go `ThinkFormat`: prompt convention for disabling extended thinking.
`assistantPre` embeds the Go field `AssistantPrefix`. -/
structure ThinkFormat where
  userSuffix : String
  assistantPre : String
deriving DecidableEq, Repr

/-- Go `ThinkFormatGLM46`. -/
def thinkFormatGLM46 : ThinkFormat := { userSuffix := "/nothink", assistantPre := "</think>\n" }

/-- Go `ThinkFormatGLM47`. -/
def thinkFormatGLM47 : ThinkFormat := { userSuffix := "/nothink", assistantPre := "</think>" }

/-- Go `ThinkFormatNone`. -/
def thinkFormatNone : ThinkFormat := { userSuffix := "", assistantPre := "" }

/-- Go `Settings` (the fields the verified operations read; the float64
sampling parameters are never consulted by the formatter, merger or loops). -/
structure Settings where
  model : String
  maxTokens : Nat
  stopSequences : List String
  thinking : Bool
  thinkFmt : Option ThinkFormat
deriving DecidableEq, Repr

/-- Go `Conversation` (aggregate root; the HTTP client handle is abstracted
out and supplied as a parameter to the operations that use it). -/
structure Conv where
  system : String
  messages : List Message
  usage : Usage
  apiToken : String
  settings : Settings
deriving DecidableEq, Repr

/-! ## Prompt formatter (`buildPrompt`, part_002 lines 211-263) -/

/-- GLM leading marker `[gMASK]<sop>` (Go constant `glmPrefix`). -/
def glmPre : String := "[gMASK]<sop>"

/-- Go constant `glmSystem`. -/
def glmSystemTok : String := "<|system|>"

/-- Go constant `glmUser`. -/
def glmUserTok : String := "<|user|>"

/-- Go constant `glmAssistant`. -/
def glmAssistantTok : String := "<|assistant|>"

/-- Go constant `glmNoThink`. -/
def glmNoThink : String := "/nothink"

/-- The `switch msg.Role` body of `buildPrompt`'s loop: what one history entry
contributes to the prompt, given whether it is the last entry.  Roles other
than user/assistant/system fall through the switch and write nothing. -/
def emitMsg (thinking : Bool) (isLast : Bool) (m : Message) : String :=
  if m.role = "user" then
    glmUserTok ++ "\n" ++ m.content ++
      (if isLast && !thinking then glmNoThink else "") ++ "\n"
  else if m.role = "assistant" then
    glmAssistantTok ++ "\n" ++ m.content ++ "\n"
  else if m.role = "system" then
    glmSystemTok ++ "\n" ++ m.content ++ "\n"
  else ""

/-- `buildPrompt`'s `for i, msg := range c.Messages` loop: sequential emission,
where `isLastMessage` holds exactly for the final element. -/
def emitHistory (thinking : Bool) : List Message → String
  | [] => ""
  | [m] => emitMsg thinking true m
  | m :: m2 :: rest => emitMsg thinking false m ++ emitHistory thinking (m2 :: rest)

/-- Go `buildPrompt`: prefix, optional system block, history, trailing
assistant marker, and the hard-coded `<think></think>` prefill when thinking
is disabled. -/
def buildPromptF (system : String) (thinking : Bool) (msgs : List Message) : String :=
  glmPre ++
  (if system ≠ "" then glmSystemTok ++ "\n" ++ system ++ "\n" else "") ++
  emitHistory thinking msgs ++
  glmAssistantTok ++ "\n" ++
  (if !thinking then "<think></think>\n" else "")

/-- `c.buildPrompt()` on the conversation value. -/
def Conv.buildPrompt (c : Conv) : String :=
  buildPromptF c.system c.settings.thinking c.messages

/-! ## Stop-reason normalization (part_002 lines 267-278) -/

/-- Go `normalizeStopReason`. -/
def normalizeStopReason (reason : String) : String :=
  if reason = "stop" then "end_turn"
  else if reason = "length" then "max_tokens"
  else if reason = "tool_calls" then "tool_use"
  else reason

/-! ## Trailing-assistant merge (`MergeIfLastTwoAssistant`, part_002 lines 322-341) -/

/-- Go `MergeIfLastTwoAssistant`: if the last two history entries are both
assistant turns, right-trim the earlier, fully trim the later, concatenate,
and drop the later entry. -/
def mergeIfLastTwoAssistant (msgs : List Message) : List Message :=
  if h : msgs.length < 2 then msgs
  else
    let lastM := msgs.get ⟨msgs.length - 1, by omega⟩
    let secondM := msgs.get ⟨msgs.length - 1 - 1, by omega⟩
    if lastM.role ≠ "assistant" ∨ secondM.role ≠ "assistant" then msgs
    else
      msgs.take (msgs.length - 1 - 1) ++
        [{ role := secondM.role,
           content := goTrimRight secondM.content ++ goTrimSpace lastM.content }]

/-- Shape of the merge on a history with at least two entries: everything
but the last two entries is preserved, and the last two are merged exactly
when both carry the assistant role. -/
theorem merge_append (xs : List Message) (a b : Message) :
    mergeIfLastTwoAssistant (xs ++ [a, b]) =
      if a.role = "assistant" ∧ b.role = "assistant" then
        xs ++ [{ role := a.role,
                 content := goTrimRight a.content ++ goTrimSpace b.content }]
      else xs ++ [a, b] := by
  have hlen : (xs ++ [a, b]).length = xs.length + 2 := by simp
  unfold mergeIfLastTwoAssistant
  rw [dif_neg (by omega)]
  simp only [List.get_eq_getElem, hlen, Nat.add_sub_cancel]
  have h1 : xs.length + 2 - 1 = xs.length + 1 := by omega
  have h2 : xs.length + 1 - 1 = xs.length := by omega
  have hb : ∀ h : xs.length + 1 < (xs ++ [a, b]).length,
      getElem (xs ++ [a, b]) (xs.length + 1) h = b := by
    intro h
    rw [List.getElem_append_right (by omega)]
    simp
  have ha : ∀ h : xs.length < (xs ++ [a, b]).length,
      getElem (xs ++ [a, b]) xs.length h = a := by
    intro h
    rw [List.getElem_append_right (by omega)]
    simp
  have ht : (xs ++ [a, b]).take xs.length = xs := by
    rw [List.take_append_of_le_length (by omega)]
    simp
  simp only [h1, h2, ha, hb, ht]
  by_cases hcond : a.role = "assistant" ∧ b.role = "assistant"
  · rw [if_pos hcond, if_neg (by tauto)]
  · rw [if_neg hcond, if_pos (by tauto)]

/-- The last two history entries both carry the assistant role (the guard of
the merge, read off the end of the list). -/
def twoTrailingAssistant (msgs : List Message) : Bool :=
  match msgs.reverse with
  | b :: a :: _ => a.role == "assistant" && b.role == "assistant"
  | _ => false

/-- The last three history entries all carry the assistant role. -/
def lastThreeAllAssistant (msgs : List Message) : Bool :=
  match msgs.reverse with
  | b :: a :: c :: _ =>
      a.role == "assistant" && b.role == "assistant" && c.role == "assistant"
  | _ => false

theorem merge_short (msgs : List Message) (h : msgs.length < 2) :
    mergeIfLastTwoAssistant msgs = msgs := by
  unfold mergeIfLastTwoAssistant
  rw [dif_pos h]

theorem exists_append_two (msgs : List Message) (h : 2 ≤ msgs.length) :
    ∃ xs a b, msgs = xs ++ [a, b] := by
  induction msgs using List.reverseRecOn with
  | nil => simp at h
  | append_singleton ys b _ =>
    cases ys using List.reverseRecOn with
    | nil => simp at h
    | append_singleton xs a _ => exact ⟨xs, a, b, by simp⟩

theorem twoTrailing_append (xs : List Message) (a b : Message) :
    twoTrailingAssistant (xs ++ [a, b]) =
      (a.role == "assistant" && b.role == "assistant") := by
  simp [twoTrailingAssistant, List.reverse_append]

theorem twoTrailing_short (msgs : List Message) (h : msgs.length < 2) :
    twoTrailingAssistant msgs = false := by
  match msgs with
  | [] => rfl
  | [m] => rfl
  | a :: b :: rest => simp at h; omega

/-- C1 (counterexample): on a history of three assistant entries,
`MergeIfLastTwoAssistant` is not idempotent — the first application merges
the last two entries, and the second application merges again with the
entry before them, so applying it twice differs from applying it once. -/
theorem merge_not_idempotent_counterexample :
    mergeIfLastTwoAssistant
        (mergeIfLastTwoAssistant
          [⟨"assistant", "a"⟩, ⟨"assistant", "b"⟩, ⟨"assistant", "c"⟩]) ≠
      mergeIfLastTwoAssistant
        [⟨"assistant", "a"⟩, ⟨"assistant", "b"⟩, ⟨"assistant", "c"⟩] := by
  decide

/-- C1 (amended): for every non-empty message history whose last three
entries are not all assistant turns, applying `MergeIfLastTwoAssistant`
twice in succession yields the same history as applying it once. -/
theorem merge_idempotent (msgs : List Message) (hne : msgs ≠ [])
    (h3 : lastThreeAllAssistant msgs = false) :
    mergeIfLastTwoAssistant (mergeIfLastTwoAssistant msgs) =
      mergeIfLastTwoAssistant msgs := by
  by_cases hlen : msgs.length < 2
  · rw [merge_short _ hlen, merge_short _ hlen]
  · obtain ⟨xs, a, b, rfl⟩ := exists_append_two msgs (by omega)
    rw [merge_append]
    by_cases hcond : a.role = "assistant" ∧ b.role = "assistant"
    · rw [if_pos hcond]
      cases xs using List.reverseRecOn with
      | nil =>
        simp only [List.nil_append]
        exact merge_short _ (by simp)
      | append_singleton ys c =>
        have hc : ¬ c.role = "assistant" := by
          intro hceq
          have ht : lastThreeAllAssistant ((ys ++ [c]) ++ [a, b]) = true := by
            simp [lastThreeAllAssistant, List.reverse_append, hcond.1, hcond.2, hceq]
          rw [h3] at ht
          exact Bool.false_ne_true ht
        have hassoc :
            (ys ++ [c]) ++
                [{ role := a.role,
                   content := goTrimRight a.content ++ goTrimSpace b.content }] =
              ys ++ [c, { role := a.role,
                          content := goTrimRight a.content ++ goTrimSpace b.content }] := by
          simp
        rw [hassoc, merge_append, if_neg (by tauto), ← hassoc]
    · rw [if_neg hcond, merge_append, if_neg hcond]

/-- C3: `MergeIfLastTwoAssistant` changes the history exactly when the last
two entries are both assistant turns; in that case every earlier entry is
preserved and the last two are replaced by a single assistant entry whose
content is the earlier content right-trimmed of whitespace concatenated,
with no separator, to the later content trimmed of surrounding whitespace. -/
theorem merge_characterization (msgs : List Message) :
    (twoTrailingAssistant msgs = false → mergeIfLastTwoAssistant msgs = msgs) ∧
    (∀ xs a b, msgs = xs ++ [a, b] → a.role = "assistant" → b.role = "assistant" →
      mergeIfLastTwoAssistant msgs =
        xs ++ [{ role := a.role,
                 content := goTrimRight a.content ++ goTrimSpace b.content }]) ∧
    (mergeIfLastTwoAssistant msgs ≠ msgs ↔ twoTrailingAssistant msgs = true) := by
  refine ⟨?_, ?_, ?_, ?_⟩
  · intro hfalse
    by_cases hlen : msgs.length < 2
    · exact merge_short _ hlen
    · obtain ⟨xs, a, b, rfl⟩ := exists_append_two msgs (by omega)
      rw [twoTrailing_append] at hfalse
      rw [merge_append, if_neg]
      intro hcond
      simp [hcond.1, hcond.2] at hfalse
  · intro xs a b heq ha hb
    subst heq
    rw [merge_append, if_pos ⟨ha, hb⟩]
  · intro hne
    by_cases hlen : msgs.length < 2
    · exact absurd (merge_short _ hlen) hne
    · obtain ⟨xs, a, b, rfl⟩ := exists_append_two msgs (by omega)
      rw [twoTrailing_append]
      by_cases hcond : a.role = "assistant" ∧ b.role = "assistant"
      · simp [hcond.1, hcond.2]
      · exact absurd (by rw [merge_append, if_neg hcond]) hne
  · intro htrue
    by_cases hlen : msgs.length < 2
    · rw [twoTrailing_short _ hlen] at htrue
      exact absurd htrue (by simp)
    · obtain ⟨xs, a, b, rfl⟩ := exists_append_two msgs (by omega)
      rw [twoTrailing_append] at htrue
      have hcond : a.role = "assistant" ∧ b.role = "assistant" := by
        rw [Bool.and_eq_true, beq_iff_eq, beq_iff_eq] at htrue
        exact htrue
      intro heq
      have hlenEq := congrArg List.length heq
      rw [merge_append, if_pos hcond] at hlenEq
      simp at hlenEq

/-- Witness for C1 (amended): a user turn followed by two assistant turns
satisfies the hypotheses, and the merge is idempotent there. -/
theorem merge_idempotent_witness :
    mergeIfLastTwoAssistant (mergeIfLastTwoAssistant
      [⟨"user", "hi"⟩, ⟨"assistant", "a"⟩, ⟨"assistant", "b"⟩]) =
      mergeIfLastTwoAssistant
        [⟨"user", "hi"⟩, ⟨"assistant", "a"⟩, ⟨"assistant", "b"⟩] :=
  merge_idempotent _ (by decide) (by decide)

/-- Witness for C3: a two-entry all-assistant history is merged into one entry
with the earlier content right-trimmed and the later content fully trimmed. -/
theorem merge_characterization_witness :
    mergeIfLastTwoAssistant [⟨"assistant", "x "⟩, ⟨"assistant", " y"⟩] =
      [] ++ [⟨"assistant", goTrimRight "x " ++ goTrimSpace " y"⟩] :=
  (merge_characterization _).2.1 [] ⟨"assistant", "x "⟩ ⟨"assistant", " y"⟩ rfl rfl rfl

/-- The default generation settings with a chosen thinking flag and the
GLM-4.6 think policy active (the configuration of the C2 scenario). -/
def settingsGLM46 (thinking : Bool) : Settings :=
  { model := "glm-4-6", maxTokens := 2048,
    stopSequences := ["<|user|>", "<|system|>"],
    thinking := thinking, thinkFmt := some thinkFormatGLM46 }

/-- The C2 scenario: system prompt "sys", a single user entry "Hello". -/
def convHello (thinking : Bool) : Conv :=
  { system := "sys", messages := [⟨"user", "Hello"⟩], usage := ⟨0, 0⟩,
    apiToken := "tok", settings := settingsGLM46 thinking }

/-- C2: with thinking disabled under the GLM-4.6 policy, the prompt built for
system "sys" and the single user entry "Hello" contains "/nothink" exactly
once and the closing think tag exactly once; with thinking enabled it
contains neither.
(The formatter hard-codes the GLM-4.6 convention, so the emitted suffix and
prefill match the active policy's strings here.) -/
theorem buildPrompt_nothink_counts :
    strCount "/nothink" (convHello false).buildPrompt = 1 ∧
    strCount "</think>" (convHello false).buildPrompt = 1 ∧
    strCount "/nothink" (convHello true).buildPrompt = 0 ∧
    strCount "</think>" (convHello true).buildPrompt = 0 := by
  decide

/-- C8: `normalizeStopReason` maps "stop" to "end_turn", "length" to
"max_tokens", "tool_calls" to "tool_use", and returns every other string —
including the empty string — unchanged. -/
theorem normalizeStopReason_spec :
    normalizeStopReason "stop" = "end_turn" ∧
    normalizeStopReason "length" = "max_tokens" ∧
    normalizeStopReason "tool_calls" = "tool_use" ∧
    normalizeStopReason "" = "" ∧
    (∀ s : String, s ≠ "stop" → s ≠ "length" → s ≠ "tool_calls" →
      normalizeStopReason s = s) := by
  refine ⟨rfl, rfl, rfl, rfl, ?_⟩
  intro s h1 h2 h3
  simp [normalizeStopReason, h1, h2, h3]

/-- Witness for C8: an unmapped stop reason passes through unchanged. -/
theorem normalizeStopReason_spec_witness :
    normalizeStopReason "content_filter" = "content_filter" :=
  normalizeStopReason_spec.2.2.2.2 "content_filter" (by decide) (by decide) (by decide)

/-! ## C10: unknown roles are omitted by the formatter -/

/-- Concatenation of a list of strings in order. -/
def strJoin : List String → String
  | [] => ""
  | s :: rest => s ++ strJoin rest

/-- Tag each history entry with `buildPrompt`'s `isLastMessage` flag. -/
def withLast : List Message → List (Message × Bool)
  | [] => []
  | [m] => [(m, true)]
  | m :: m2 :: rest => (m, false) :: withLast (m2 :: rest)

/-- The roles handled by `buildPrompt`'s switch. -/
def knownRole (m : Message) : Bool :=
  m.role == "user" || m.role == "assistant" || m.role == "system"

theorem emitMsg_unknown (thinking isLast : Bool) (m : Message)
    (h : knownRole m = false) : emitMsg thinking isLast m = "" := by
  simp only [knownRole, Bool.or_eq_false_iff, beq_eq_false_iff_ne, ne_eq] at h
  obtain ⟨⟨h1, h2⟩, h3⟩ := h
  simp [emitMsg, h1, h2, h3]

theorem emitHistory_eq_filter (thinking : Bool) (msgs : List Message) :
    emitHistory thinking msgs =
      strJoin (((withLast msgs).filter fun p => knownRole p.1).map
        fun p => emitMsg thinking p.2 p.1) := by
  induction msgs with
  | nil => rfl
  | cons m rest ih =>
    cases rest with
    | nil =>
      by_cases h : knownRole m
      · simp [emitHistory, withLast, h, strJoin]
      · rw [Bool.not_eq_true] at h
        simp [emitHistory, withLast, h, strJoin, emitMsg_unknown _ _ _ h]
    | cons m2 rest2 =>
      by_cases h : knownRole m
      · simp [emitHistory, withLast, h, strJoin, ih]
      · rw [Bool.not_eq_true] at h
        simp [emitHistory, withLast, h, strJoin, ih, emitMsg_unknown _ _ _ h]

/-- C10: messages whose role is none of user/assistant/system contribute no
role delimiter and no content to the prompt — `buildPrompt` is exactly the
fixed framing around the in-order emission of the known-role entries only. -/
theorem buildPrompt_skips_unknown_roles (system : String) (thinking : Bool)
    (msgs : List Message) :
    buildPromptF system thinking msgs =
      glmPre ++
      (if system ≠ "" then glmSystemTok ++ "\n" ++ system ++ "\n" else "") ++
      strJoin (((withLast msgs).filter fun p => knownRole p.1).map
        fun p => emitMsg thinking p.2 p.1) ++
      glmAssistantTok ++ "\n" ++
      (if !thinking then "<think></think>\n" else "") ∧
    (∀ (m : Message) (isLast : Bool), knownRole m = false →
      emitMsg thinking isLast m = "") := by
  constructor
  · rw [buildPromptF, emitHistory_eq_filter]
  · intro m isLast h
    exact emitMsg_unknown _ _ _ h

/-- Witness for C10: a tool-role entry emits nothing, and the prompt over a
history holding only that entry is the bare framing. -/
theorem buildPrompt_skips_unknown_roles_witness :
    emitMsg false true ⟨"tool", "payload"⟩ = "" :=
  (buildPrompt_skips_unknown_roles "sys" false [⟨"tool", "payload"⟩]).2
    ⟨"tool", "payload"⟩ true (by decide)

/-! ## SSE stream decoder (`parseSSEStream`, types.go lines 234-292)

The Go decoder reads lines from the response body and decodes each `data:`
payload with `encoding/json`; the stdlib JSON decoder is abstracted here as a
`decode` parameter (`none` models an unmarshalling failure). The per-token
callback is modelled by the ordered list of `(text, done)` events it
receives. -/

/-- Token counters of a streaming chunk's optional `usage` object. -/
structure TokenCounts where
  promptTokens : Int
  completionTokens : Int
  totalTokens : Int
deriving DecidableEq, Repr

/-- One element of a streaming chunk's `choices` array; `finish_reason` is
nullable. -/
structure StreamChoice where
  text : String
  finishReason : Option String
deriving DecidableEq, Repr

/-- Go `streamChunk` (the fields the decoder and orchestrator consult). -/
structure StreamChunk where
  choices : List StreamChoice
  usage : Option TokenCounts
deriving DecidableEq, Repr

/-- The SSE data-line marker. -/
def dataMarker : String := "data: "

/-- `strings.HasPrefix(line, "data: ")`. -/
def hasDataMarker (line : String) : Bool := listIsPre dataMarker.data line.data

/-- `strings.TrimPrefix(line, "data: ")` on a line known to carry the marker. -/
def dropDataMarker (line : String) : String := String.mk (line.data.drop 6)

/-- Go `parseSSEStream`: accumulator `acc`, pending stop reason `stop`,
and the events delivered to the callback so far. -/
def parseSSEStream (decode : String → Option StreamChunk) :
    List String → String → String → List (String × Bool) →
    String × String × List (String × Bool)
  | [], acc, stop, events => (acc, stop, events)
  | line :: rest, acc, stop, events =>
    if hasDataMarker line then
      let dataStr := dropDataMarker line
      if dataStr = "[DONE]" then (acc, stop, events ++ [("", true)])
      else
        match decode dataStr with
        | none => parseSSEStream decode rest acc stop events
        | some chunk =>
          match chunk.choices with
          | [] => parseSSEStream decode rest acc stop events
          | choice :: _ =>
            let acc2 := if choice.text ≠ "" then acc ++ choice.text else acc
            let events2 :=
              if choice.text ≠ "" then events ++ [(choice.text, false)] else events
            let stop2 :=
              match choice.finishReason with
              | some r => if r ≠ "" then r else stop
              | none => stop
            parseSSEStream decode rest acc2 stop2 events2
    else parseSSEStream decode rest acc stop events

/-- The first data payload of the C5 scenario. -/
def sseHelData : String := "\x7b\"choices\":[\x7b\"text\":\"Hel\"\x7d]\x7d"

/-- The second data payload of the C5 scenario. -/
def sseLoData : String :=
  "\x7b\"choices\":[\x7b\"text\":\"lo\",\"finish_reason\":\"stop\"\x7d]\x7d"

/-- Models `encoding/json` unmarshalling of the two concrete C5 chunk
payloads into `streamChunk` values; everything else is malformed. -/
def decodeEx (s : String) : Option StreamChunk :=
  if s = sseHelData then some ⟨[⟨"Hel", none⟩], none⟩
  else if s = sseLoData then some ⟨[⟨"lo", some "stop"⟩], none⟩
  else none

/-- C5: fed the two concrete chunks then the `[DONE]` sentinel, the decoder
reports full text "Hello", pre-normalization stop reason "stop", and a final
callback with empty increment and done = true; and for every stream,
non-data lines, malformed payloads and zero-choice chunks are skipped
without terminating, while a later non-empty finish reason overwrites the
pending one. -/
theorem parseSSEStream_spec :
    parseSSEStream decodeEx
        [dataMarker ++ sseHelData, dataMarker ++ sseLoData, dataMarker ++ "[DONE]"]
        "" "" [] =
      ("Hello", "stop", [("Hel", false), ("lo", false), ("", true)]) ∧
    (∀ decode line rest acc stop ev, hasDataMarker line = false →
      parseSSEStream decode (line :: rest) acc stop ev =
        parseSSEStream decode rest acc stop ev) ∧
    (∀ decode line rest acc stop ev, hasDataMarker line = true →
      dropDataMarker line ≠ "[DONE]" → decode (dropDataMarker line) = none →
      parseSSEStream decode (line :: rest) acc stop ev =
        parseSSEStream decode rest acc stop ev) ∧
    (∀ decode line rest acc stop ev u, hasDataMarker line = true →
      dropDataMarker line ≠ "[DONE]" →
      decode (dropDataMarker line) = some ⟨[], u⟩ →
      parseSSEStream decode (line :: rest) acc stop ev =
        parseSSEStream decode rest acc stop ev) ∧
    (∀ decode line rest acc stop ev chunk choice others r,
      hasDataMarker line = true → dropDataMarker line ≠ "[DONE]" →
      decode (dropDataMarker line) = some chunk →
      chunk.choices = choice :: others → choice.finishReason = some r → r ≠ "" →
      parseSSEStream decode (line :: rest) acc stop ev =
        parseSSEStream decode rest
          (if choice.text ≠ "" then acc ++ choice.text else acc) r
          (if choice.text ≠ "" then ev ++ [(choice.text, false)] else ev)) := by
  refine ⟨by decide, ?_, ?_, ?_, ?_⟩
  · intro decode line rest acc stop ev h
    simp [parseSSEStream, h]
  · intro decode line rest acc stop ev h hD hdec
    simp [parseSSEStream, h, hD, hdec]
  · intro decode line rest acc stop ev u h hD hdec
    simp [parseSSEStream, h, hD, hdec]
  · intro decode line rest acc stop ev chunk choice others r h hD hdec hch hfr hr
    simp [parseSSEStream, h, hD, hdec, hch, hfr, hr]

/-- Witness for C5: a keep-alive line without the data marker is skipped. -/
theorem parseSSEStream_spec_witness :
    parseSSEStream decodeEx [": keep-alive"] "" "" [] =
      parseSSEStream decodeEx [] "" "" [] :=
  parseSSEStream_spec.2.1 decodeEx ": keep-alive" [] "" "" [] (by decide)

/-! ## Streaming send result handling (`SendStreaming`, types.go lines 121-231) -/

/-- The value results of a single send: reply text, normalized stop reason,
and the two token counts. -/
structure SendOut where
  reply : String
  stop : String
  inToks : Int
  outToks : Int
deriving DecidableEq, Repr

/-- UTF-8 byte width of one character (Go `len` counts bytes). -/
def charUtf8Size (c : Char) : Nat :=
  if c.val < 0x80 then 1 else if c.val < 0x800 then 2
  else if c.val < 0x10000 then 3 else 4

/-- Go `len(s)`: the UTF-8 byte length of the string. -/
def goStrLen (s : String) : Nat := (s.data.map charUtf8Size).sum

/-- The rough 4-characters-per-token output estimate of `SendStreaming`:
`len(reply) / 4`, bumped to 1 when the reply is non-empty but shorter than
four bytes. -/
def estimateOutputTokens (reply : String) : Nat :=
  let n := goStrLen reply / 4
  if n = 0 ∧ 0 < goStrLen reply then 1 else n

/-- The tail of `SendStreaming` after a successful SSE parse: append the
assistant reply, normalize the stop reason, and account output tokens using
the fixed estimate (the parsed chunks' usage metadata is never consulted). -/
def sendStreamingModel (decode : String → Option StreamChunk)
    (lines : List String) (c : Conv) : Conv × SendOut :=
  let parsed := parseSSEStream decode lines "" "" []
  let reply := parsed.1
  let stopRaw := parsed.2.1
  let c1 := { c with messages := c.messages ++ [(⟨"assistant", reply⟩ : Message)] }
  let stop := normalizeStopReason stopRaw
  let outTok : Int := (estimateOutputTokens reply : Nat)
  ({ c1 with usage := ⟨c1.usage.inputTokens, c1.usage.outputTokens + outTok⟩ },
   ⟨reply, stop, 0, outTok⟩)

/-- A streaming payload whose chunk carries a real `usage` object reporting
42 completion tokens. -/
def sseUsageData : String :=
  "\x7b\"choices\":[\x7b\"text\":\"Hello\",\"finish_reason\":\"stop\"\x7d],\"usage\":\x7b\"prompt_tokens\":7,\"completion_tokens\":42,\"total_tokens\":49\x7d\x7d"

/-- Models `encoding/json` unmarshalling of the usage-carrying C9 payload. -/
def decodeUsage (s : String) : Option StreamChunk :=
  if s = sseUsageData then
    some ⟨[⟨"Hello", some "stop"⟩], some ⟨7, 42, 49⟩⟩
  else none

/-- An empty conversation used as the starting state of concrete runs. -/
def convEmpty : Conv :=
  { system := "sys", messages := [], usage := ⟨0, 0⟩, apiToken := "tok",
    settings := settingsGLM46 false }

/-- C9 (counterexample): on a stream whose chunk supplies a real
completion-token count of 42, the streaming send still returns the fixed
character-ratio estimate (here 1 for the five-byte reply "Hello"), not the
provider's count. -/
theorem streaming_usage_ignored_counterexample :
    decodeUsage sseUsageData =
      some ⟨[⟨"Hello", some "stop"⟩], some ⟨7, 42, 49⟩⟩ ∧
    (sendStreamingModel decodeUsage
        [dataMarker ++ sseUsageData, dataMarker ++ "[DONE]"] convEmpty).2.outToks = 1 ∧
    (1 : Int) ≠ 42 := by
  refine ⟨rfl, by decide, by decide⟩

/-- C9 (amended): for every streaming send, the returned output-token count
is always the fixed character-to-token-ratio estimate of the reply; any
completion-token count supplied by the provider's chunks is ignored. -/
theorem streaming_outTokens_is_estimate (decode : String → Option StreamChunk)
    (lines : List String) (c : Conv) :
    (sendStreamingModel decode lines c).2.outToks =
      (estimateOutputTokens (parseSSEStream decode lines "" "" []).1 : Nat) ∧
    (sendStreamingModel decode lines c).1.usage.outputTokens =
      c.usage.outputTokens +
        (estimateOutputTokens (parseSSEStream decode lines "" "" []).1 : Nat) := by
  constructor <;> rfl

/-! ## Non-streaming send (`Send`, part_002 lines 80-206)

The HTTP exchange (retry loop included) is abstracted as its final outcome,
and `encoding/json` unmarshalling of the body as a `decode` parameter. -/

/-- One element of the buffered response's `choices` array. -/
structure RespChoice where
  text : String
  finishReason : String
deriving DecidableEq, Repr

/-- Go `completionResponse` (the fields `Send` consults). -/
structure CompletionResponse where
  choices : List RespChoice
  usage : TokenCounts
deriving DecidableEq, Repr

/-- Outcome of the HTTP exchange: transport failure after retries, body read
failure, or a response with a status code and raw body. -/
inductive HttpOutcome where
  | netErr (msg : String)
  | readErr (msg : String)
  | resp (status : Nat) (body : String)
deriving DecidableEq, Repr

/-- The zero-valued results returned alongside most errors. -/
def zeroOut : SendOut := ⟨"", "", 0, 0⟩

/-- `Send` after the user turn has been handled: build the prompt, run the
exchange, and on success append the assistant reply and accumulate usage. -/
def sendRespond (decode : String → Option CompletionResponse)
    (outcome : HttpOutcome) (c : Conv) : Conv × SendOut × Option String :=
  let _prompt := c.buildPrompt
  match outcome with
  | .netErr e => (c, zeroOut, some ("HTTP error after 3 retries: " ++ e))
  | .readErr e => (c, zeroOut, some ("error reading response: " ++ e))
  | .resp status body =>
    if status ≠ 200 then
      (c, zeroOut, some ("API error (status " ++ toString status ++ "): " ++ body))
    else
      match decode body with
      | none => (c, ⟨body, "", 0, 0⟩, some "error parsing response")
      | some r =>
        match r.choices with
        | [] => (c, zeroOut, some "no choices in response")
        | choice :: _ =>
          ({ c with
              messages := c.messages ++ [(⟨"assistant", choice.text⟩ : Message)],
              usage := ⟨c.usage.inputTokens + r.usage.promptTokens,
                        c.usage.outputTokens + r.usage.completionTokens⟩ },
           ⟨choice.text, normalizeStopReason choice.finishReason,
            r.usage.promptTokens, r.usage.completionTokens⟩, none)

/-- Go `Send`: credential check, optional user-turn append, empty-history
check, then the exchange. -/
def sendGo (decode : String → Option CompletionResponse) (outcome : HttpOutcome)
    (c : Conv) (text : String) : Conv × SendOut × Option String :=
  if c.apiToken = "" then (c, zeroOut, some "API token not set")
  else if text ≠ "" then
    sendRespond decode outcome
      { c with messages := c.messages ++ [(⟨"user", text⟩ : Message)] }
  else if c.messages.isEmpty then
    (c, zeroOut, some "cannot generate: no messages in conversation")
  else sendRespond decode outcome c

/-- The history after the user-turn-append step of `Send`. -/
def appendUserTurn (c : Conv) (text : String) : List Message :=
  if text = "" then c.messages else c.messages ++ [(⟨"user", text⟩ : Message)]

theorem sendRespond_state (decode : String → Option CompletionResponse)
    (outcome : HttpOutcome) (c : Conv) :
    ((sendRespond decode outcome c).2.2.isSome →
      (sendRespond decode outcome c).1 = c) ∧
    ((sendRespond decode outcome c).2.2 = none →
      (sendRespond decode outcome c).1.messages =
        c.messages ++
          [(⟨"assistant", (sendRespond decode outcome c).2.1.reply⟩ : Message)] ∧
      (sendRespond decode outcome c).1.usage.inputTokens =
        c.usage.inputTokens + (sendRespond decode outcome c).2.1.inToks ∧
      (sendRespond decode outcome c).1.usage.outputTokens =
        c.usage.outputTokens + (sendRespond decode outcome c).2.1.outToks) := by
  cases outcome with
  | netErr e => simp [sendRespond]
  | readErr e => simp [sendRespond]
  | resp status body =>
    by_cases hstat : status = 200
    · subst hstat
      cases hdec : decode body with
      | none => simp [sendRespond, hdec]
      | some r =>
        cases hch : r.choices with
        | nil => simp [sendRespond, hdec, hch]
        | cons choice others => simp [sendRespond, hdec, hch]
    · simp [sendRespond, hstat]

/-- The conversation the C6 counterexample starts from: no credential set. -/
def convNoToken : Conv :=
  { system := "sys", messages := [], usage := ⟨0, 0⟩, apiToken := "",
    settings := settingsGLM46 false }

/-- C6 (counterexample): a `Send` of the non-empty input "Hello" with no
credential configured fails, yet the input is not left appended as a user
turn — the credential check runs before the append, so the history is
entirely unchanged. -/
theorem send_missing_credential_counterexample :
    (sendGo (fun _ => none) (.netErr "unused") convNoToken "Hello").2.2.isSome = true ∧
    (sendGo (fun _ => none) (.netErr "unused") convNoToken "Hello").1.messages ≠
      convNoToken.messages ++ [(⟨"user", "Hello"⟩ : Message)] ∧
    (sendGo (fun _ => none) (.netErr "unused") convNoToken "Hello").1.messages =
      convNoToken.messages := by
  refine ⟨by decide, by decide, by decide⟩

/-- C6 (amended): on every failing `Send` the usage counters are unchanged
and the history equals its pre-call value except that, when a credential is
configured, a non-empty input remains appended as a user turn (the
missing-credential failure returns before the append, leaving the history
fully unchanged); on success the history gains the user turn and the
assistant reply, and usage is incremented by the response's counts. -/
theorem send_state_spec (decode : String → Option CompletionResponse)
    (outcome : HttpOutcome) (c : Conv) (text : String) :
    ((sendGo decode outcome c text).2.2.isSome →
      (sendGo decode outcome c text).1.usage = c.usage ∧
      (sendGo decode outcome c text).1.messages =
        (if c.apiToken = "" then c.messages else appendUserTurn c text)) ∧
    ((sendGo decode outcome c text).2.2 = none →
      (sendGo decode outcome c text).1.messages =
        appendUserTurn c text ++
          [(⟨"assistant", (sendGo decode outcome c text).2.1.reply⟩ : Message)] ∧
      (sendGo decode outcome c text).1.usage.inputTokens =
        c.usage.inputTokens + (sendGo decode outcome c text).2.1.inToks ∧
      (sendGo decode outcome c text).1.usage.outputTokens =
        c.usage.outputTokens + (sendGo decode outcome c text).2.1.outToks) := by
  unfold sendGo
  by_cases htok : c.apiToken = ""
  · simp [htok]
  · rw [if_neg htok]
    by_cases htext : text ≠ ""
    · rw [if_pos htext]
      have h := sendRespond_state decode outcome
        { c with messages := c.messages ++ [(⟨"user", text⟩ : Message)] }
      constructor
      · intro hs
        have h1 := h.1 hs
        refine ⟨?_, ?_⟩
        · rw [h1]
        · rw [h1, if_neg htok, appendUserTurn, if_neg (by simpa using htext)]
      · intro hn
        have h2 := h.2 hn
        refine ⟨?_, h2.2.1, h2.2.2⟩
        rw [h2.1, appendUserTurn, if_neg (by simpa using htext)]
    · rw [if_neg htext]
      rw [not_not] at htext
      by_cases hemp : c.messages.isEmpty
      · simp [hemp, htext, appendUserTurn]
      · rw [if_neg hemp]
        have h := sendRespond_state decode outcome c
        constructor
        · intro hs
          have h1 := h.1 hs
          refine ⟨by rw [h1], ?_⟩
          rw [h1, if_neg htok, appendUserTurn, if_pos htext]
        · intro hn
          have h2 := h.2 hn
          refine ⟨?_, h2.2.1, h2.2.2⟩
          rw [h2.1, appendUserTurn, if_pos htext]

/-- Witness for C6 (amended): a transport failure with a credential present
leaves usage unchanged and the non-empty input appended as a user turn. -/
theorem send_state_spec_witness :
    (sendGo (fun _ => none) (.netErr "connection refused") convEmpty "Hello").1.usage =
      convEmpty.usage ∧
    (sendGo (fun _ => none) (.netErr "connection refused") convEmpty "Hello").1.messages =
      (if convEmpty.apiToken = "" then convEmpty.messages
       else appendUserTurn convEmpty "Hello") :=
  (send_state_spec (fun _ => none) (.netErr "connection refused") convEmpty "Hello").1
    (by decide)

/-! ## Automatic continuation (`SendUntilDone`, part_002 lines 282-317)

The loop is embedded with the underlying `Send` abstracted as a state
function: the state carries the conversation history (so the per-iteration
trailing-assistant merge is visible) plus arbitrary extra data `τ` (a stub's
call counter, recorded inputs, ...). The unbounded `for` loop is given
explicit fuel; `none` models running out of fuel. -/

/-- The values `SendUntilDone` returns: accumulated reply, last stop
reason, summed token counts, and the propagated error, if any. -/
structure LoopOut where
  reply : String
  stop : String
  inToks : Int
  outToks : Int
  err : Option String
deriving DecidableEq, Repr

/-- Go `SendUntilDone`'s loop: call `send`, propagate an error together with
the accumulated reply, otherwise accumulate, merge the trailing assistant
pair, and continue with empty input while the stop reason is "max_tokens". -/
def sendUntilDoneGo {τ : Type}
    (send : List Message × τ → String → (List Message × τ) × SendOut × Option String) :
    Nat → List Message × τ → String → String → Int → Int →
    Option ((List Message × τ) × LoopOut)
  | 0, _, _, _, _, _ => none
  | Nat.succ fuel, st, input, total, inT, outT =>
    match send st input with
    | (st', out, some e) => some (st', ⟨total, out.stop, inT, outT, some e⟩)
    | (st', out, none) =>
      let total2 := total ++ out.reply
      let inT2 := inT + out.inToks
      let outT2 := outT + out.outToks
      let st2 := (mergeIfLastTwoAssistant st'.1, st'.2)
      if out.stop ≠ "max_tokens" then some (st2, ⟨total2, out.stop, inT2, outT2, none⟩)
      else sendUntilDoneGo send fuel st2 "" total2 inT2 outT2

/-- The C4 stub `Send`: mutates the history like the real `Send` (appends a
user turn for non-empty input, then the assistant reply), counts its calls,
records the inputs it received, and reports stop reason "max_tokens" on the
first two calls and "stop" on the third. -/
def stubSendC4 : List Message × Nat × List String → String →
    (List Message × Nat × List String) × SendOut × Option String :=
  fun st input =>
    match st with
    | (msgs, n, ins) =>
      let msgs1 := if input ≠ "" then msgs ++ [(⟨"user", input⟩ : Message)] else msgs
      let out : SendOut :=
        if n = 0 then ⟨"A ", "max_tokens", 1, 2⟩
        else if n = 1 then ⟨"B", "max_tokens", 3, 4⟩
        else ⟨"C", "stop", 5, 6⟩
      ((msgs1 ++ [(⟨"assistant", out.reply⟩ : Message)], n + 1, ins ++ [input]),
       out, none)

/-- C4: against the two-truncations-then-stop stub, `SendUntilDone` performs
exactly three underlying calls — the first with the caller's input, the
rest with empty input — returns the concatenation of the three partial
replies with summed token counts, and merges the trailing assistant pair
after every iteration (the final history holds one merged assistant turn);
and, generally, an underlying error is propagated together with whatever
reply had accumulated over the prior successful iterations. -/
theorem sendUntilDone_spec :
    sendUntilDoneGo stubSendC4 5 (([], 0, []) : List Message × Nat × List String)
        "hi" "" 0 0 =
      some (([⟨"user", "hi"⟩, ⟨"assistant", "ABC"⟩], 3, ["hi", "", ""]),
            ⟨"A BC", "stop", 9, 12, none⟩) ∧
    (∀ (τ : Type)
        (send : List Message × τ → String → (List Message × τ) × SendOut × Option String)
        (st st' : List Message × τ) (out : SendOut) (e : String)
        (fuel : Nat) (input total : String) (inT outT : Int),
      send st input = (st', out, some e) →
      sendUntilDoneGo send (fuel + 1) st input total inT outT =
        some (st', ⟨total, out.stop, inT, outT, some e⟩)) := by
  constructor
  · decide
  · intro τ send st st' out e fuel input total inT outT h
    simp [sendUntilDoneGo, h]

/-- Witness for C4's error-propagation part: a stub that always fails makes
the loop return the error with the (empty) accumulated reply after one call. -/
theorem sendUntilDone_spec_witness :
    sendUntilDoneGo (fun st _ => (st, zeroOut, some "boom"))
        1 (([], ()) : List Message × Unit) "x" "" 0 0 =
      some ((([], ()) : List Message × Unit), ⟨"", "", 0, 0, some "boom"⟩) :=
  sendUntilDone_spec.2 Unit (fun st _ => (st, zeroOut, some "boom"))
    ([], ()) ([], ()) zeroOut "boom" 0 "x" "" 0 0 rfl

/-! ## C7: cancellation observed before network I/O

The repository's context-aware `Send` (`SetContext`, endpoint override) is
exercised by its tests but its body is not among the sources here; the
cancellation behaviour is therefore modelled from the spec. -/

/-- Modelled from the spec: the context-aware `Send` (absent from the
sources; only its tests appear) observes the caller-supplied cancellation
signal before issuing any network I/O — an already-cancelled signal yields
an immediate `CancellationError` ("context canceled") and the transport is
never invoked. The result is paired with the number of transport calls
performed, the observable a fake transport's call-count assertion checks. -/
def sendWithCancelModel (cancelled : Bool)
    (transport : Conv → String → Conv × SendOut × Option String)
    (c : Conv) (text : String) : (Conv × SendOut × Option String) × Nat :=
  if cancelled then ((c, zeroOut, some "context canceled"), 0)
  else (transport c text, 1)

/-- C7: when the cancellation signal is already cancelled at call time,
`Send` returns a `CancellationError` immediately, the conversation is
untouched, and the transport performs zero calls. -/
theorem send_cancelled_no_network
    (transport : Conv → String → Conv × SendOut × Option String)
    (c : Conv) (text : String) :
    sendWithCancelModel true transport c text =
      ((c, zeroOut, some "context canceled"), 0) := by
  rfl

end NovelAI
